import Mathlib

/-!
Verification of the transport-lib bridge core (Go repository
`Goden-Gun/transport-lib`): a shallow embedding in Lean 4 of the
envelope normalization helpers (`pkg/envelope/envelope.go`), the
server-side stream dispatch loop and Delivery/Ack wrapper
(`pkg/bridge/delivery.go`), and the client connect/reconnect,
backpressure and lifecycle logic (`pkg/bridge` client file).

Go conventions used throughout the embedding:
* a Go `error` is `Err := Option String` (`none` is the nil error);
* Go pointers that the code nil-checks become `Option`;
* nondeterministic inputs of the code (`uuid.NewString()`,
  `timestamppb.Now()`, transport send/receive results, which branch of a
  `select` fires) are passed as explicit parameters;
* `time.Duration` is `Int` nanoseconds;
* concurrency is modelled as sequential interleaving: a `sync.Once`
  body runs under mutual exclusion, so any set of concurrent callers is
  observed as some sequence of calls.
-/

namespace TransportLib

/-- A Go `error` value: `none` is the nil error. -/
abbrev Err := Option String

/-- A Go `context.Context`, abstracted to an identity plus the value
`ctx.Err()` would return. -/
structure Ctx where
  name : String
  errMsg : Err
deriving DecidableEq, Repr

/-- `context.Background()`: never cancelled. -/
def background : Ctx := { name := "background", errMsg := none }

/-! ## pkg/envelope: wire data model and normalization -/

/-- `timestamppb.Timestamp`: seconds and nanos since the Unix epoch. -/
structure Timestamp where
  seconds : Int
  nanos : Int
deriving DecidableEq, Repr

/-- Unix seconds of Go's zero `time.Time` (January 1, year 1, UTC). -/
def zeroTimeUnixSeconds : Int := -62135596800

/-- `ts.AsTime().IsZero()`: the timestamp denotes Go's zero time. -/
def Timestamp.isZeroTime (t : Timestamp) : Bool :=
  t.seconds = zeroTimeUnixSeconds && t.nanos = 0

/-- `msg.Timestamp == nil || msg.Timestamp.AsTime().IsZero()` — the
condition under which normalization fills the timestamp. -/
def tsMissing : Option Timestamp → Bool
  | none => true
  | some t => t.isZeroTime

/-- `envelope.Version`, the protocol version constant `"2025-01"`. -/
def Version : String := "2025-01"

/-- `bridgepb.Message`, restricted to the fields the library reads or
writes.  `V` abstracts the `structpb.Value` payload type. -/
structure Message (V : Type) where
  version : String
  requestId : String
  metadata : Option (List (String × V))
  timestamp : Option Timestamp
  kind : String
  action : String
  payload : Option V
deriving DecidableEq, Repr

/-- `bridgepb.TransportEnvelope`, restricted to the fields the library
reads or writes. -/
structure TransportEnvelope (V : Type) where
  message : Option (Message V)
  attributes : Option (List (String × String))
  createdAt : Option Timestamp
  envelopeVersion : String
  traceId : String
  slotId : Nat
  slotGeneration : Nat
deriving DecidableEq, Repr

/-- `if cur == "" { cur = dflt }` — the string-defaulting pattern of
the normalization helpers. -/
def fillString (cur dflt : String) : String :=
  if cur = "" then dflt else cur

/-- `if ptr == nil { ptr = &empty }` — the map-defaulting pattern (a
nil map or struct pointer becomes an empty one). -/
def orEmptyList : Option (List α) → Option (List α)
  | none => some []
  | some m => some m

/-- `if ts == nil || ts.AsTime().IsZero() { ts = timestamppb.Now() }`. -/
def fillTimestamp (cur : Option Timestamp) (now : Timestamp) : Option Timestamp :=
  if tsMissing cur then some now else cur

/-- `envelope.NormalizeMessage`.  The Go function mutates through a
possibly-nil pointer; here it maps `Option (Message V)` to the updated
value.  `freshId` stands for the `uuid.NewString()` drawn inside, `now`
for `timestamppb.Now()`. -/
def NormalizeMessage (freshId : String) (now : Timestamp) :
    Option (Message V) → Option (Message V)
  | none => none
  | some msg => some
      { version := fillString msg.version Version
        requestId := fillString msg.requestId freshId
        metadata := orEmptyList msg.metadata
        timestamp := fillTimestamp msg.timestamp now
        kind := msg.kind
        action := msg.action
        payload := msg.payload }

/-- `envelope.NormalizeEnvelope`.  Same conventions as
`NormalizeMessage`. -/
def NormalizeEnvelope (freshId : String) (now : Timestamp) :
    Option (TransportEnvelope V) → Option (TransportEnvelope V)
  | none => none
  | some env => some
      { message := NormalizeMessage freshId now env.message
        attributes := orEmptyList env.attributes
        createdAt := fillTimestamp env.createdAt now
        envelopeVersion := fillString env.envelopeVersion Version
        traceId := env.traceId
        slotId := env.slotId
        slotGeneration := env.slotGeneration }

/-! ## pkg/bridge: frame and handler types -/

/-- `bridgepb.RegisterFrame`. -/
structure RegisterFrame where
  nodeId : String
  nspace : String
  supportedVersions : List String
  bridgeVersion : String
deriving DecidableEq, Repr

/-- `bridgepb.AckFrame`. -/
structure AckFrame where
  messageId : String
  broadcastId : String
deriving DecidableEq, Repr

/-- `bridgepb.HeartbeatFrame`. -/
structure HeartbeatFrame where
  nonce : String
deriving DecidableEq, Repr

/-- The client→server oneof `bridgepb.StreamRequest`.  Each constructor
carries the frame pointer (`Option`, since the oneof wrapper may hold a
nil pointer); `unset` is a request whose `GetPayload()` is nil.  For an
ingress frame the inner `Option` is the `Envelope` pointer. -/
inductive StreamRequest (E : Type) where
  | register (frame : Option RegisterFrame)
  | ingress (frame : Option (Option E))
  | ack (frame : Option AckFrame)
  | heartbeat (frame : Option HeartbeatFrame)
  | unset
deriving DecidableEq, Repr

/-- `req.GetRegister()`: the register frame when the oneof holds one. -/
def StreamRequest.getRegister : StreamRequest E → Option RegisterFrame
  | .register f => f
  | _ => none

/-- `bridge.RegisterMeta`. -/
structure RegisterMeta where
  nodeId : String
  nspace : String
  version : String
deriving DecidableEq, Repr

/-- The `RegisterMeta` the server builds from a register frame
(`bridgeService.Stream`). -/
def metaOfRegister (reg : RegisterFrame) : RegisterMeta :=
  { nodeId := reg.nodeId, nspace := reg.nspace, version := reg.bridgeVersion }

/-- `bridge.Ack`, as constructed by the serve loop from an `AckFrame`
(message id and broadcast id; status and reason are left zero). -/
structure Ack where
  messageId : String
  broadcastId : String
  status : String
  reason : String
deriving DecidableEq, Repr

/-- The `bridge.Ack` value the serve loop builds from an ack frame. -/
def ackOfFrame (a : AckFrame) : Ack :=
  { messageId := a.messageId, broadcastId := a.broadcastId, status := "", reason := "" }

/-- A `bridge.Handler`: the five callbacks, abstracted to the error
each returns when invoked with the given argument.  (The session and
context arguments carry no information the dispatch logic reads.) -/
structure Handler (E : Type) where
  onRegister : RegisterMeta → Err
  onIngress : E → Err
  onAck : Ack → Err
  onHeartbeat : String → Err
  onClose : Err

/-- One observable handler invocation. -/
inductive HEvent (E : Type) where
  | onRegister (meta : RegisterMeta)
  | onIngress (env : E)
  | onAck (a : Ack)
  | onHeartbeat (nonce : String)
  | onClose
deriving DecidableEq, Repr

/-- Is this event a registration-callback invocation? -/
def HEvent.isRegister : HEvent E → Bool
  | .onRegister _ => true
  | _ => false

/-! ## pkg/bridge/delivery.go: Delivery / Ack wrapper -/

/-- `bridge.Delivery`: an envelope plus the bound acknowledgement
function (`none` when no function is bound).  The mutable one-shot
state lives in `DeliveryState`. -/
structure Delivery (E : Type) where
  envelope : E
  ackFn : Option (Ctx → Err)

/-- The mutable part of a `Delivery`: whether `ackOnce` has fired, the
cached `ackErr`, and a ghost count of invocations of the bound
function. -/
structure DeliveryState where
  ackDone : Bool
  ackErr : Err
  invocations : Nat
deriving DecidableEq, Repr

/-- A fresh `Delivery`'s state: `ackOnce` unfired, no cached error. -/
def initDeliveryState : DeliveryState :=
  { ackDone := false, ackErr := none, invocations := 0 }

/-- `Delivery.Ack`: nil-function guard, nil-context replacement,
`ackOnce.Do` invoking the bound function and caching its error, then
return of the cached error. -/
def Delivery.Ack (d : Delivery E) (s : DeliveryState) (ctx : Option Ctx) :
    DeliveryState × Err :=
  match d.ackFn with
  | none => (s, none)
  | some f =>
    let c := ctx.getD background
    if s.ackDone then (s, s.ackErr)
    else
      let s' : DeliveryState :=
        { ackDone := true, ackErr := f c, invocations := s.invocations + 1 }
      (s', s'.ackErr)

/-- Run a sequence of `Ack` calls (an arbitrary interleaving of
concurrent callers, serialized by `ackOnce`), collecting each call's
return value. -/
def ackRun (d : Delivery E) : DeliveryState → List (Option Ctx) →
    DeliveryState × List Err
  | s, [] => (s, [])
  | s, c :: cs =>
    let r := d.Ack s c
    let rest := ackRun d r.1 cs
    (rest.1, r.2 :: rest.2)

/-! ## pkg/bridge/delivery.go: server-side stream loop -/

/-- The body of `bridgeService.Stream`'s `for` loop over an already
registered stream: `frames` are the requests `stream.Recv` will yield,
`readErr` the (non-nil) error `Recv` returns after them.  Produces the
handler invocations in order and the error the loop returns. -/
def serveLoop (h : Handler E) : List (StreamRequest E) → String →
    List (HEvent E) × Err
  | [], readErr => ([], some readErr)
  | req :: rest, readErr =>
    match req with
    | .ingress f =>
      match f with
      | some (some env) =>
        (match h.onIngress env with
         | some e => ([.onIngress env], some e)
         | none =>
           let r := serveLoop h rest readErr
           (.onIngress env :: r.1, r.2))
      | _ => serveLoop h rest readErr
    | .ack f =>
      match f with
      | some a =>
        (match h.onAck (ackOfFrame a) with
         | some e => ([.onAck (ackOfFrame a)], some e)
         | none =>
           let r := serveLoop h rest readErr
           (.onAck (ackOfFrame a) :: r.1, r.2))
      | none => serveLoop h rest readErr
    | .heartbeat f =>
      let nonce := match f with
        | some hb => hb.nonce
        | none => ""
      (match h.onHeartbeat nonce with
       | some e => ([.onHeartbeat nonce], some e)
       | none =>
         let r := serveLoop h rest readErr
         (.onHeartbeat nonce :: r.1, r.2))
    | .register _ => serveLoop h rest readErr
    | .unset => serveLoop h rest readErr

/-- `bridgeService.Stream`: first-frame registration gate, `OnRegister`
callback, deferred `OnClose` after registration, then the serve loop.
`frames` are the requests `stream.Recv` yields before failing with
`readErr`. -/
def Stream (h : Handler E) (frames : List (StreamRequest E)) (readErr : String) :
    List (HEvent E) × Err :=
  match frames with
  | [] => ([], some readErr)
  | first :: rest =>
    match first.getRegister with
    | none => ([], some "register frame required")
    | some reg =>
      let meta := metaOfRegister reg
      match h.onRegister meta with
      | some e => ([.onRegister meta], some e)
      | none =>
        let r := serveLoop h rest readErr
        (.onRegister meta :: r.1 ++ [.onClose], r.2)

/-- The at-most-one handler invocation a single in-loop frame gives
rise to (the case analysis of the serve loop's `switch`). -/
def frameEvent : StreamRequest E → Option (HEvent E)
  | .ingress (some (some env)) => some (.onIngress env)
  | .ack (some a) => some (.onAck (ackOfFrame a))
  | .heartbeat f => some (.onHeartbeat (match f with
      | some hb => hb.nonce
      | none => ""))
  | _ => none

/-- Which callback an event's frame type is dispatched to, and the
error that callback returns. -/
def respond (h : Handler E) : HEvent E → Err
  | .onRegister m => h.onRegister m
  | .onIngress env => h.onIngress env
  | .onAck a => h.onAck a
  | .onHeartbeat n => h.onHeartbeat n
  | .onClose => h.onClose

/-- Reference dispatch loop: invoke the matching callback for each
event in order, stopping at (and returning) the first non-nil callback
error, and returning the read error when all callbacks succeed. -/
def processEvents (h : Handler E) : List (HEvent E) → String →
    List (HEvent E) × Err
  | [], readErr => ([], some readErr)
  | ev :: rest, readErr =>
    match respond h ev with
    | some e => ([ev], some e)
    | none =>
      let r := processEvents h rest readErr
      (ev :: r.1, r.2)

/-! ## pkg/bridge: client options and construction -/

/-- One second, in `time.Duration` nanoseconds. -/
def second : Int := 1000000000

/-- `bridge.Options`.  Durations are `Int` nanoseconds. -/
structure Options where
  address : String
  nspace : String
  nodeId : String
  deliverBuffer : Int
  broadcastBuffer : Int
  dialTimeout : Int
  heartbeatInterval : Int
  reconnectBackoff : Int
  maxReconnectBackoff : Int
  tlsCertFile : String
  tlsKeyFile : String
  insecure : Bool
  metadata : List (String × String)
  supportedVersions : List String
  bridgeVersion : String
  enableBackpressure : Bool
  maxInFlightDeliver : Int
  gracefulShutdownTimeout : Int
deriving DecidableEq, Repr

/-- The immutable part of a constructed `client`: defaulted options,
channel capacities, and the backpressure pool capacity (`none` when the
`inflight` channel is nil). -/
structure ClientInit where
  opts : Options
  deliverCap : Int
  broadcastCap : Int
  inflight : Option Int
deriving DecidableEq, Repr

/-- `bridge.NewClient`: validation of address / node id / namespace,
defaulting of buffers and version fields, and creation of the
backpressure pool. -/
def NewClient (opts : Options) : Except String ClientInit :=
  if opts.address = "" then .error "bridge address is required"
  else if opts.nodeId = "" then .error "node id is required"
  else if opts.nspace = "" then .error "namespace is required"
  else
    let opts := if opts.deliverBuffer ≤ 0 then { opts with deliverBuffer := 128 } else opts
    let opts := if opts.broadcastBuffer ≤ 0 then { opts with broadcastBuffer := 128 } else opts
    let opts := if opts.supportedVersions = [] then { opts with supportedVersions := [Version] } else opts
    let opts := if opts.bridgeVersion = "" then { opts with bridgeVersion := Version } else opts
    .ok
      { opts := opts
        deliverCap := opts.deliverBuffer
        broadcastCap := opts.broadcastBuffer
        inflight :=
          if opts.enableBackpressure ∧ opts.maxInFlightDeliver > 0 then
            some opts.maxInFlightDeliver
          else none }

/-! ## pkg/bridge client: reconnect backoff (`client.run`) -/

/-- The initial / reset value of `retry` in `client.run`: the
configured base backoff, defaulted to one second when non-positive. -/
def initRetry (o : Options) : Int :=
  if o.reconnectBackoff ≤ 0 then second else o.reconnectBackoff

/-- The `maxRetry` value in `client.run`: the configured ceiling,
defaulted to fifteen seconds when non-positive. -/
def maxRetryOf (o : Options) : Int :=
  if o.maxReconnectBackoff ≤ 0 then 15 * second else o.maxReconnectBackoff

/-- The update of `retry` after one failed connect attempt
(`client.run`: double while below `maxRetry`, clamping at it). -/
def nextRetry (m retry : Int) : Int :=
  if retry < m then
    let r := retry * 2
    if r > m then m else r
  else retry

/-- The wait intervals `client.run` sleeps through, given the outcomes
of successive `connect` calls (`false` = failure, `true` = success) and
the current `retry` state.  A failure waits `retry` then updates it; a
success waits nothing and resets `retry` to the base. -/
def runTrace (o : Options) : List Bool → Int → List Int
  | [], _ => []
  | false :: rest, retry => retry :: runTrace o rest (nextRetry (maxRetryOf o) retry)
  | true :: rest, _ => runTrace o rest (initRetry o)

/-! ## pkg/bridge client: backpressure and PublishIngress -/

/-- `bridge.ErrNotStarted`. -/
def ErrNotStarted : Err := some "bridge client not started"

/-- Outcome of `client.acquireSlot`'s `select`. -/
inductive AcqResult where
  | ok
  | cancelled
  | blocked
deriving DecidableEq, Repr

/-- `client.acquireSlot`: nil pool admits immediately; otherwise the
`select` between a pool send and `ctx.Done()`.  `used` is the number of
tokens in the `inflight` channel, `ctxCancelled` whether `ctx.Done()`
is ready, and `preferCancel` resolves the nondeterministic choice when
both branches are ready.  `blocked` means neither branch is ready (the
call waits for a slot or cancellation). -/
def acquireSlot (pool : Option Int) (used : Int) (ctxCancelled preferCancel : Bool) :
    AcqResult :=
  match pool with
  | none => .ok
  | some cap =>
    if used < cap then
      if ctxCancelled && preferCancel then .cancelled else .ok
    else if ctxCancelled then .cancelled
    else .blocked

/-- `client.releaseSlot`: nonblocking receive from the pool (no-op on a
nil or empty pool). -/
def releaseSlot (pool : Option Int) (used : Int) : Int :=
  match pool with
  | none => used
  | some _ => if used > 0 then used - 1 else used

/-- Result of one `PublishIngress` call: pool occupancy afterwards, the
returned error, and the envelope of the ingress frame passed to
`stream.Send` (when a send was attempted). -/
structure PublishOut (V : Type) where
  used : Int
  result : Err
  sent : Option (TransportEnvelope V)
deriving DecidableEq, Repr

/-- `client.PublishIngress`: started-flag gate, slot acquisition,
envelope normalization, locked send, unconditional (deferred) slot
release.  `sendErr` is the error `stream.Send` would return; `ctxErr`
the message of `ctx.Err()`; `freshId` / `now` feed normalization.
`none` means the call is blocked in `acquireSlot`. -/
def PublishIngress (started : Bool) (pool : Option Int) (used : Int)
    (ctxCancelled preferCancel : Bool) (ctxErr : String)
    (env : TransportEnvelope V) (freshId : String) (now : Timestamp)
    (sendErr : Err) : Option (PublishOut V) :=
  if !started then some { used := used, result := ErrNotStarted, sent := none }
  else
    match acquireSlot pool used ctxCancelled preferCancel with
    | .blocked => none
    | .cancelled => some { used := used, result := some ctxErr, sent := none }
    | .ok =>
      let used' := match pool with
        | none => used
        | some _ => used + 1
      some
        { used := releaseSlot pool used'
          result := sendErr
          sent := NormalizeEnvelope freshId now (some env) }

/-! ## pkg/bridge client: Close, Drain and lifecycle -/

/-- The lifecycle flags of a `client` that `Close` and `cleanup`
touch. -/
structure CState where
  started : Bool
  closed : Bool
  runCancelled : Bool
  connCancelled : Bool
  sendClosed : Bool
  channelsClosed : Bool
deriving DecidableEq, Repr

/-- `client.Close`: under `stopOnce`, cancel both contexts, close the
send half and the connection, close both subscription channels, set
`closed`.  A second call is a no-op. -/
def closeClient (s : CState) : CState :=
  if s.closed then s
  else
    { s with
      closed := true
      runCancelled := true
      connCancelled := true
      sendClosed := true
      channelsClosed := true }

/-- Which of `Drain`'s two `select` branches fires first. -/
inductive DrainRace where
  | tasksDone
  | ctxExpired
deriving DecidableEq, Repr

/-- `client.Drain`: initiate `Close`, then wait on `wg.Wait` against
`ctx.Done()`; `race` records which finishes first, `ctxErr` the message
of `ctx.Err()`. -/
def Drain (s : CState) (race : DrainRace) (ctxErr : String) : CState × Err :=
  let s' := closeClient s
  match race with
  | .tasksDone => (s', none)
  | .ctxExpired => (s', some ctxErr)

/-- The events of the client supervisor that touch lifecycle state:
`connectOk` is `client.connect` returning nil (register frame sent),
`connectFail` a failed attempt, `recvError` a receive-loop error
followed by `client.cleanup`, `closeEvt` a `Close` call. -/
inductive ClientEvent where
  | connectOk
  | connectFail
  | recvError
  | closeEvt
deriving DecidableEq, Repr

/-- The connection-related flags the supervisor events update. -/
structure LifeState where
  started : Bool
  closed : Bool
  hasStream : Bool
  hasConn : Bool
deriving DecidableEq, Repr

/-- A freshly constructed client: nothing started. -/
def initLife : LifeState :=
  { started := false, closed := false, hasStream := false, hasConn := false }

/-- Effect of one supervisor event on the lifecycle flags, as in
`client.connect` (sets `started` after the register send succeeds),
`client.cleanup` (clears stream and conn, leaves `started`), and
`client.Close` (sets `closed`, leaves `started`). -/
def stepLife (s : LifeState) : ClientEvent → LifeState
  | .connectOk => { s with started := true, hasStream := true, hasConn := true }
  | .connectFail => s
  | .recvError => { s with hasStream := false, hasConn := false }
  | .closeEvt => { s with closed := true }

/-! ## Outbound send serialization (session.send, PublishIngress,
sendHeartbeat) -/

/-- Primitive actions on one duplex stream's send path. -/
inductive StreamAction where
  | lockMu
  | sendFrame
  | unlockMu
deriving DecidableEq, Repr

/-- `session.send`: `sendMu.Lock()`, `stream.Send`, deferred
`sendMu.Unlock()`.  Used by `SendDeliver`, `SendBroadcast` and
`SendHeartbeat`. -/
def sessionSendActions : List StreamAction := [.lockMu, .sendFrame, .unlockMu]

/-- `session.SendDeliver`'s actions on the stream. -/
def sendDeliverActions : List StreamAction := sessionSendActions

/-- `session.SendBroadcast`'s actions on the stream. -/
def sendBroadcastActions : List StreamAction := sessionSendActions

/-- `session.SendHeartbeat`'s actions on the stream. -/
def sendHeartbeatActions : List StreamAction := sessionSendActions

/-- The send section of `client.PublishIngress`: `sendMu.Lock()`,
`stream.Send(req)`, `sendMu.Unlock()`. -/
def publishSendActions : List StreamAction := [.lockMu, .sendFrame, .unlockMu]

/-- `client.sendHeartbeat` (heartbeat loop): `sendMu.Lock()`,
`stream.Send(req)`, `sendMu.Unlock()`. -/
def clientHeartbeatActions : List StreamAction := [.lockMu, .sendFrame, .unlockMu]

/-- The register send in `client.connect`: after assigning the fresh
stream to `c.stream`, connect calls `stream.Send(req)` on it directly —
without acquiring `sendMu`. -/
def connectRegisterActions : List StreamAction := [.sendFrame]

/-- Every `sendFrame` in the action list happens while the send mutex
is held, and locks/unlocks balance (depth-counting check). -/
def sendsLocked : Nat → List StreamAction → Bool
  | depth, [] => depth = 0
  | depth, .lockMu :: rest => sendsLocked (depth + 1) rest
  | depth, .sendFrame :: rest => depth > 0 && sendsLocked depth rest
  | depth, .unlockMu :: rest => depth > 0 && sendsLocked (depth - 1) rest

/-! ## pkg/bridge server: Serve precheck -/

/-- What `server.Serve` does before accepting any connection. -/
inductive ServeResult where
  | earlyError (e : String)
  | serving
deriving DecidableEq, Repr

/-- The prefix of `server.Serve` up to `srv.Serve(lis)`: nil-handler
check, `net.Listen` (whose failure is `listenErr`), TLS key-pair
loading when not insecure and both files are set (`tlsLoadErr`).
`serving` means the gRPC server was built and starts accepting
connections. -/
def serverServe (handlerNil : Bool) (address : String) (listenErr : Option String)
    (insecure : Bool) (certFile keyFile : String) (tlsLoadErr : Option String) :
    ServeResult :=
  if handlerNil then .earlyError "handler is required"
  else
    match listenErr with
    | some e => .earlyError ("listen " ++ address ++ ": " ++ e)
    | none =>
      if !insecure && certFile != "" && keyFile != "" then
        match tlsLoadErr with
        | some e => .earlyError e
        | none => .serving
      else .serving

/-! ## Helper lemmas -/

/-- Once `ackOnce` has fired, further `Ack` calls leave the state alone
and return the cached error. -/
theorem ackRun_after_done (env : E) (f : Ctx → Err) (s : DeliveryState)
    (hs : s.ackDone = true) (cs : List (Option Ctx)) :
    ackRun ⟨env, some f⟩ s cs = (s, cs.map fun _ => s.ackErr) := by
  induction cs with
  | nil => rfl
  | cons c cs ih => simp [ackRun, Delivery.Ack, hs, ih]

/-- `Version` is a nonempty string. -/
theorem version_ne_empty : Version ≠ "" := by decide

/-- A filled string field is nonempty once the default is, so a second
fill (with any default) changes nothing. -/
theorem fillString_idem (cur dflt dflt2 : String) (hd : dflt ≠ "") :
    fillString (fillString cur dflt) dflt2 = fillString cur dflt := by
  by_cases h : cur = "" <;> simp [fillString, h, hd]

/-- Defaulting a nil map twice equals defaulting it once. -/
theorem orEmptyList_idem (m : Option (List α)) :
    orEmptyList (orEmptyList m) = orEmptyList m := by
  cases m <;> rfl

/-- A filled timestamp is present and non-zero once `now` is, so a
second fill changes nothing. -/
theorem fillTimestamp_idem (cur : Option Timestamp) (n1 n2 : Timestamp)
    (hn : n1.isZeroTime = false) :
    fillTimestamp (fillTimestamp cur n1) n2 = fillTimestamp cur n1 := by
  by_cases h : tsMissing cur = true
  · unfold fillTimestamp
    rw [if_pos h]
    simp [tsMissing, hn]
  · have h' : tsMissing cur = false := by simpa using h
    simp [fillTimestamp, h']

/-- `NormalizeMessage` is idempotent when the fresh request id is
nonempty and the fresh timestamp is not the zero time. -/
theorem normalizeMessage_idem (f1 f2 : String) (n1 n2 : Timestamp)
    (hf : f1 ≠ "") (hn : n1.isZeroTime = false) (m : Option (Message V)) :
    NormalizeMessage f2 n2 (NormalizeMessage f1 n1 m) = NormalizeMessage f1 n1 m := by
  cases m with
  | none => rfl
  | some msg =>
    simp only [NormalizeMessage]
    rw [fillString_idem _ _ _ version_ne_empty, fillString_idem _ _ _ hf,
      orEmptyList_idem, fillTimestamp_idem _ _ _ hn]

/-- The defaulted base backoff is positive. -/
theorem initRetry_pos (o : Options) : 0 < initRetry o := by
  unfold initRetry
  split
  next h => decide
  next h => omega

/-- One failed-connect update of a clamped retry value doubles it,
clamping at the ceiling. -/
theorem nextRetry_double (x m : Int) (hx : 0 < x) :
    nextRetry m (min x m) = min (x * 2) m := by
  simp only [nextRetry, min_def]
  split_ifs <;> omega

/-- The retry value after `k` consecutive failures is
`min (base * 2 ^ k) ceiling`, provided the base does not exceed the
ceiling. -/
theorem runTrace_replicate_pow (o : Options) :
    ∀ n k : Nat,
      runTrace o (List.replicate n false) (min (initRetry o * 2 ^ k) (maxRetryOf o))
        = List.ofFn fun j : Fin n => min (initRetry o * 2 ^ (k + (j : Nat))) (maxRetryOf o) := by
  intro n
  induction n with
  | zero => intro k; simp [runTrace]
  | succ n ih =>
    intro k
    have hx : 0 < initRetry o * 2 ^ k :=
      mul_pos (initRetry_pos o) (by positivity)
    have hfe : (fun j : Fin n => min (initRetry o * 2 ^ (k + 1 + (j : Nat))) (maxRetryOf o))
        = fun i : Fin n => min (initRetry o * 2 ^ (k + ((i : Nat) + 1))) (maxRetryOf o) := by
      funext j
      rw [show k + 1 + (j : Nat) = k + ((j : Nat) + 1) from by omega]
    rw [List.replicate_succ]
    show min (initRetry o * 2 ^ k) (maxRetryOf o)
        :: runTrace o (List.replicate n false)
            (nextRetry (maxRetryOf o) (min (initRetry o * 2 ^ k) (maxRetryOf o)))
        = _
    rw [nextRetry_double _ _ hx,
      show initRetry o * 2 ^ k * 2 = initRetry o * 2 ^ (k + 1) from by ring,
      ih (k + 1), List.ofFn_succ]
    simp only [Fin.val_succ, Fin.val_zero, Nat.add_zero]
    rw [hfe]

/-- The serve loop is the reference dispatch loop applied to the
at-most-one event each frame generates. -/
theorem serveLoop_eq_processEvents (h : Handler E) (frames : List (StreamRequest E))
    (readErr : String) :
    serveLoop h frames readErr = processEvents h (frames.filterMap frameEvent) readErr := by
  induction frames with
  | nil => rfl
  | cons req rest ih =>
    cases req with
    | register rf => simpa [serveLoop, frameEvent, List.filterMap_cons] using ih
    | unset => simpa [serveLoop, frameEvent, List.filterMap_cons] using ih
    | ingress f =>
      match f with
      | none => simpa [serveLoop, frameEvent, List.filterMap_cons] using ih
      | some none => simpa [serveLoop, frameEvent, List.filterMap_cons] using ih
      | some (some env) =>
        simp only [serveLoop, frameEvent, List.filterMap_cons, processEvents, respond]
        cases h.onIngress env <;> simp [ih]
    | ack f =>
      match f with
      | none => simpa [serveLoop, frameEvent, List.filterMap_cons] using ih
      | some a =>
        simp only [serveLoop, frameEvent, List.filterMap_cons, processEvents, respond]
        cases h.onAck (ackOfFrame a) <;> simp [ih]
    | heartbeat f =>
      match f with
      | none =>
        simp only [serveLoop, frameEvent, List.filterMap_cons, processEvents, respond]
        cases h.onHeartbeat "" <;> simp [ih]
      | some hb =>
        simp only [serveLoop, frameEvent, List.filterMap_cons, processEvents, respond]
        cases h.onHeartbeat hb.nonce <;> simp [ih]

/-- Every event the reference loop emits comes from its input list. -/
theorem processEvents_events_sub (h : Handler E) (evs : List (HEvent E))
    (readErr : String) : ∀ ev ∈ (processEvents h evs readErr).1, ev ∈ evs := by
  induction evs with
  | nil => simp [processEvents]
  | cons x xs ih =>
    intro ev hev
    simp only [processEvents] at hev
    cases hr : respond h x with
    | some e =>
      rw [hr] at hev
      simp only [List.mem_singleton] at hev
      simp [hev]
    | none =>
      rw [hr] at hev
      simp only [List.mem_cons] at hev
      rcases hev with rfl | hm
      · exact List.mem_cons_self _ _
      · exact List.mem_cons_of_mem _ (ih _ hm)

/-- No in-loop frame generates a registration event. -/
theorem frameEvent_not_register (req : StreamRequest E) (ev : HEvent E)
    (h : frameEvent req = some ev) : ev.isRegister = false := by
  cases req with
  | register rf => simp [frameEvent] at h
  | unset => simp [frameEvent] at h
  | ingress f =>
    match f with
    | some (some env) =>
      simp only [frameEvent, Option.some.injEq] at h
      rw [← h]; rfl
    | some none => simp [frameEvent] at h
    | none => simp [frameEvent] at h
  | ack f =>
    match f with
    | some a =>
      simp only [frameEvent, Option.some.injEq] at h
      rw [← h]; rfl
    | none => simp [frameEvent] at h
  | heartbeat f =>
    simp only [frameEvent, Option.some.injEq] at h
    rw [← h]; rfl

/-- When every callback succeeds, the reference loop invokes all of
them and returns the read error. -/
theorem processEvents_all_none (h : Handler E) (evs : List (HEvent E))
    (readErr : String) (hall : ∀ ev ∈ evs, respond h ev = none) :
    processEvents h evs readErr = (evs, some readErr) := by
  induction evs with
  | nil => rfl
  | cons x xs ih =>
    have hx := hall x (List.mem_cons_self x xs)
    simp only [processEvents, hx]
    rw [ih fun ev hev => hall ev (List.mem_cons_of_mem _ hev)]

/-- The error the reference loop returns is the read error or the
error of one of the invoked callbacks. -/
theorem processEvents_err (h : Handler E) (evs : List (HEvent E))
    (readErr e : String) (he : (processEvents h evs readErr).2 = some e) :
    e = readErr ∨ ∃ ev ∈ evs, respond h ev = some e := by
  induction evs with
  | nil =>
    left
    simp only [processEvents, Option.some.injEq] at he
    exact he.symm
  | cons x xs ih =>
    simp only [processEvents] at he
    cases hr : respond h x with
    | some e2 =>
      rw [hr] at he
      simp only [Option.some.injEq] at he
      right
      exact ⟨x, List.mem_cons_self _ _, by rw [hr, he]⟩
    | none =>
      rw [hr] at he
      rcases ih he with h1 | ⟨ev, hm, hrv⟩
      · exact Or.inl h1
      · exact Or.inr ⟨ev, List.mem_cons_of_mem _ hm, hrv⟩

/-! ## Claim theorems -/

/-- C1: for every Delivery with a bound acknowledgement function,
across any (nonempty) sequence of `Ack` calls — any interleaving of
concurrent callers, serialized by the one-shot guard — the bound
function is invoked exactly once, and every call returns the cached
result of that single invocation, which ran on the first call's
context with a nil context replaced by the background context. -/
theorem ack_exactly_once (env0 : E) (f : Ctx → Err) (ctxs : List (Option Ctx))
    (h : ctxs ≠ []) :
    (ackRun ⟨env0, some f⟩ initDeliveryState ctxs).1.invocations = 1
    ∧ ∀ e ∈ (ackRun ⟨env0, some f⟩ initDeliveryState ctxs).2,
        e = f ((ctxs.head h).getD background) := by
  cases ctxs with
  | nil => exact absurd rfl h
  | cons c cs =>
    have hstep : Delivery.Ack (⟨env0, some f⟩ : Delivery E) initDeliveryState c
        = ({ ackDone := true, ackErr := f (c.getD background), invocations := 1 },
           f (c.getD background)) := rfl
    have key : ackRun (⟨env0, some f⟩ : Delivery E) initDeliveryState (c :: cs)
        = ({ ackDone := true, ackErr := f (c.getD background), invocations := 1 },
           f (c.getD background) :: cs.map fun _ => f (c.getD background)) := by
      simp only [ackRun, hstep]
      rw [ackRun_after_done _ _ _ rfl]
    rw [key]
    refine ⟨rfl, ?_⟩
    intro e he
    simp only [List.head_cons]
    simp only [List.mem_cons, List.mem_map] at he
    rcases he with rfl | ⟨x, _, rfl⟩ <;> rfl

/-- Acknowledgement callback used by the C1 witness. -/
def ackWitFn : Ctx → Err := fun c => some c.name

/-- C1 witness: three `Ack` calls (the second with a nil context, the
third with a cancelled context) invoke the bound function once and all
return its first result. -/
theorem ack_exactly_once_witness :
    ([some ⟨"req", none⟩, none, some ⟨"bg", some "cancelled"⟩] ≠ ([] : List (Option Ctx)))
    ∧ (ackRun ⟨(0 : Nat), some ackWitFn⟩ initDeliveryState
        [some ⟨"req", none⟩, none, some ⟨"bg", some "cancelled"⟩]).1.invocations = 1
    ∧ ∀ e ∈ (ackRun ⟨(0 : Nat), some ackWitFn⟩ initDeliveryState
        [some ⟨"req", none⟩, none, some ⟨"bg", some "cancelled"⟩]).2,
        e = ackWitFn ((some (⟨"req", none⟩ : Ctx)).getD background) := by
  have H := ack_exactly_once (0 : Nat) ackWitFn
    [some ⟨"req", none⟩, none, some ⟨"bg", some "cancelled"⟩] (by decide)
  exact ⟨by decide, H.1, fun e he => H.2 e he⟩

/-- Configuration with a configured base backoff of 16 s and a
configured ceiling of 15 s, used to refute C2 as stated. -/
def backoffCfg : Options :=
  { address := "addr", nspace := "ns", nodeId := "node"
    deliverBuffer := 0, broadcastBuffer := 0
    dialTimeout := 0, heartbeatInterval := 0
    reconnectBackoff := 16 * second, maxReconnectBackoff := 15 * second
    tlsCertFile := "", tlsKeyFile := "", insecure := true
    metadata := [], supportedVersions := [], bridgeVersion := ""
    enableBackpressure := false, maxInFlightDeliver := 0
    gracefulShutdownTimeout := 0 }

/-- C2 counterexample: with a configured base backoff of 16 s and a
configured ceiling of 15 s, every wait interval is 16 s — it exceeds
the ceiling (and never doubles), refuting "never exceeds the configured
ceiling" as stated for all configurations. -/
theorem reconnect_backoff_counterexample :
    runTrace backoffCfg [false, false] (initRetry backoffCfg)
        = [16 * second, 16 * second]
    ∧ maxRetryOf backoffCfg = 15 * second
    ∧ ¬ (∀ w ∈ runTrace backoffCfg [false, false] (initRetry backoffCfg),
          w ≤ maxRetryOf backoffCfg) := by decide

/-- C2 (amended): provided the defaulted base backoff does not exceed
the defaulted ceiling, the wait before the (k+1)-st consecutive failed
attempt is `min (base * 2 ^ k) ceiling` — it starts at the base
(defaulted to 1 s when non-positive), doubles after each failure up to
the ceiling (defaulted to 15 s), never exceeds the ceiling — and a
successful connection resets the retry interval to the base. -/
theorem reconnect_backoff (o : Options) (n : Nat) (r : Int) (rest : List Bool)
    (h : initRetry o ≤ maxRetryOf o) :
    runTrace o (List.replicate n false) (initRetry o)
      = List.ofFn (fun k : Fin n => min (initRetry o * 2 ^ (k : Nat)) (maxRetryOf o))
    ∧ (∀ w ∈ runTrace o (List.replicate n false) (initRetry o), w ≤ maxRetryOf o)
    ∧ runTrace o (true :: rest) r = runTrace o rest (initRetry o) := by
  have h0 : min (initRetry o * 2 ^ 0) (maxRetryOf o) = initRetry o := by
    rw [pow_zero, mul_one, min_eq_left h]
  have main := runTrace_replicate_pow o n 0
  rw [h0] at main
  simp only [Nat.zero_add] at main
  refine ⟨main, ?_, rfl⟩
  intro w hw
  rw [main] at hw
  simp only [List.mem_ofFn] at hw
  obtain ⟨i, hi⟩ := hw
  rw [← hi]
  exact min_le_right _ _

/-- Configuration with unset (zero) backoff options, so the defaults of
1 s base and 15 s ceiling apply; used by the C2 witness. -/
def defaultBackoffCfg : Options :=
  { address := "addr", nspace := "ns", nodeId := "node"
    deliverBuffer := 0, broadcastBuffer := 0
    dialTimeout := 0, heartbeatInterval := 0
    reconnectBackoff := 0, maxReconnectBackoff := 0
    tlsCertFile := "", tlsKeyFile := "", insecure := true
    metadata := [], supportedVersions := [], bridgeVersion := ""
    enableBackpressure := false, maxInFlightDeliver := 0
    gracefulShutdownTimeout := 0 }

/-- C2 witness: with the default 1 s base and 15 s ceiling, six
consecutive failures wait 1, 2, 4, 8, 15, 15 seconds, and a success
resets the interval to the base. -/
theorem reconnect_backoff_witness :
    initRetry defaultBackoffCfg ≤ maxRetryOf defaultBackoffCfg
    ∧ runTrace defaultBackoffCfg (List.replicate 6 false) (initRetry defaultBackoffCfg)
        = List.ofFn (fun k : Fin 6 =>
            min (initRetry defaultBackoffCfg * 2 ^ (k : Nat)) (maxRetryOf defaultBackoffCfg))
    ∧ runTrace defaultBackoffCfg (true :: [false]) 7
        = runTrace defaultBackoffCfg [false] (initRetry defaultBackoffCfg) := by
  have H := reconnect_backoff defaultBackoffCfg 6 7 [false] (by decide)
  exact ⟨by decide, H.1, H.2.2⟩

/-- C3: a new stream whose first frame is not a Register frame is
rejected with an error and no handler callback runs; when the first
frame is a Register frame, `OnRegister` runs exactly once, before
anything else (it is the first handler event, and the only registration
event); and a Register frame anywhere later in the stream is silently
ignored — it changes nothing about the serve loop's events or result. -/
theorem stream_registration_gate (h : Handler E) (first : StreamRequest E)
    (rest pre post : List (StreamRequest E)) (rf : Option RegisterFrame)
    (readErr : String) :
    (first.getRegister = none →
      Stream h (first :: rest) readErr = ([], some "register frame required"))
    ∧ (∀ reg, first.getRegister = some reg →
        (Stream h (first :: rest) readErr).1.head?
            = some (.onRegister (metaOfRegister reg))
        ∧ (Stream h (first :: rest) readErr).1.countP (fun ev => ev.isRegister) = 1)
    ∧ serveLoop h (pre ++ .register rf :: post) readErr
        = serveLoop h (pre ++ post) readErr := by
  refine ⟨?_, ?_, ?_⟩
  · intro h0
    simp [Stream, h0]
  · intro reg hreg
    constructor
    · cases hr : h.onRegister (metaOfRegister reg) <;> simp [Stream, hreg, hr]
    · cases hr : h.onRegister (metaOfRegister reg) with
      | some e => simp [Stream, hreg, hr, List.countP_cons, HEvent.isRegister]
      | none =>
        have hloop : ∀ ev ∈ (serveLoop h rest readErr).1, ev.isRegister = false := by
          intro ev hev
          rw [serveLoop_eq_processEvents] at hev
          obtain ⟨req, _, hfe⟩ :=
            List.mem_filterMap.mp (processEvents_events_sub h _ readErr ev hev)
          exact frameEvent_not_register req ev hfe
        have h1 : (serveLoop h rest readErr).1.countP (fun ev => ev.isRegister) = 0 :=
          List.countP_eq_zero.mpr fun a ha => by simp [hloop a ha]
        simp only [Stream, hreg, hr]
        rw [List.countP_append, List.countP_cons, h1, List.countP_cons, List.countP_nil]
        simp [HEvent.isRegister]
  · have hf : List.filterMap frameEvent (pre ++ .register rf :: post)
        = List.filterMap frameEvent (pre ++ post) := by
      simp [List.filterMap_append, List.filterMap_cons, frameEvent]
    rw [serveLoop_eq_processEvents, serveLoop_eq_processEvents, hf]

/-- A handler whose callbacks all succeed, used by witnesses. -/
def witHandler : Handler Nat :=
  { onRegister := fun _ => none
    onIngress := fun _ => none
    onAck := fun _ => none
    onHeartbeat := fun _ => none
    onClose := none }

/-- A concrete register frame used by witnesses. -/
def regW : RegisterFrame :=
  { nodeId := "node-1", nspace := "ns", supportedVersions := ["2025-01"],
    bridgeVersion := "2025-01" }

/-- C3 witness: a heartbeat-first stream is rejected with no events; a
stream whose second Register frame is a duplicate still produces
exactly one registration event. -/
theorem stream_registration_gate_witness :
    Stream witHandler [StreamRequest.heartbeat none] "EOF"
        = ([], some "register frame required")
    ∧ (Stream witHandler
        [StreamRequest.register (some regW), StreamRequest.register (some regW)]
        "EOF").1.countP (fun ev => ev.isRegister) = 1 :=
  ⟨(stream_registration_gate witHandler (StreamRequest.heartbeat none)
      [] [] [] none "EOF").1 rfl,
   ((stream_registration_gate witHandler (StreamRequest.register (some regW))
      [StreamRequest.register (some regW)] [] [] none "EOF").2.1 regW rfl).2⟩

/-- C4: every frame on a registered stream is dispatched by type to at
most one handler callback (the serve loop equals the reference dispatch
loop over `frameEvent`); when all callbacks succeed the loop invokes
each in order and returns the stream read error; any error the loop
returns is the read error or the error some invoked callback returned;
and after a successful registration the close callback is the last
handler event however the stream ends. -/
theorem stream_dispatch (h : Handler E) (frames rest : List (StreamRequest E))
    (first : StreamRequest E) (readErr e : String) :
    serveLoop h frames readErr = processEvents h (frames.filterMap frameEvent) readErr
    ∧ ((∀ ev ∈ frames.filterMap frameEvent, respond h ev = none) →
        serveLoop h frames readErr = (frames.filterMap frameEvent, some readErr))
    ∧ ((serveLoop h frames readErr).2 = some e →
        e = readErr ∨ ∃ ev ∈ frames.filterMap frameEvent, respond h ev = some e)
    ∧ (∀ reg, first.getRegister = some reg →
        h.onRegister (metaOfRegister reg) = none →
        (Stream h (first :: rest) readErr).1.getLast? = some .onClose) := by
  refine ⟨serveLoop_eq_processEvents h frames readErr, ?_, ?_, ?_⟩
  · intro hall
    rw [serveLoop_eq_processEvents]
    exact processEvents_all_none h _ readErr hall
  · intro he
    rw [serveLoop_eq_processEvents] at he
    exact processEvents_err h _ readErr e he
  · intro reg hreg hr
    simp only [Stream, hreg, hr]
    rw [List.getLast?_concat]

/-- C4 witness: a registered stream with one ingress frame dispatches
it to `OnIngress` and ends with the close callback; the loop over that
one frame returns the read error after one successful callback. -/
theorem stream_dispatch_witness :
    (Stream witHandler
        [StreamRequest.register (some regW), StreamRequest.ingress (some (some 5))]
        "EOF").1.getLast? = some .onClose
    ∧ serveLoop witHandler [StreamRequest.ingress (some (some 5))] "EOF"
        = (List.filterMap frameEvent [StreamRequest.ingress (some (some 5))],
           some "EOF") :=
  ⟨(stream_dispatch witHandler [] [StreamRequest.ingress (some (some 5))]
      (StreamRequest.register (some regW)) "EOF" "x").2.2.2 regW rfl rfl,
   (stream_dispatch witHandler [StreamRequest.ingress (some (some 5))] []
      (StreamRequest.register (some regW)) "EOF" "x").2.1 (by decide)⟩

/-- C6: envelope normalization is idempotent — a second
`NormalizeEnvelope` pass (with fresh `uuid.NewString()` and
`timestamppb.Now()` inputs) over an already-normalized envelope changes
nothing, because every defaulted field is filled only when empty/nil.
The hypotheses record that a real uuid is nonempty and a real `Now()`
is not the zero time. -/
theorem normalizeEnvelope_idempotent (f1 f2 : String) (n1 n2 : Timestamp)
    (hf : f1 ≠ "") (hn : n1.isZeroTime = false)
    (env : Option (TransportEnvelope V)) :
    NormalizeEnvelope f2 n2 (NormalizeEnvelope f1 n1 env)
      = NormalizeEnvelope f1 n1 env := by
  cases env with
  | none => rfl
  | some e =>
    simp only [NormalizeEnvelope]
    rw [normalizeMessage_idem _ _ _ _ hf hn, fillString_idem _ _ _ version_ne_empty,
      orEmptyList_idem, fillTimestamp_idem _ _ _ hn]

/-- Sample unnormalized envelope for the C6 witness: an empty message
version and request id, nil metadata and attributes, a zero-time
created-at, and an empty envelope version. -/
def sampleEnv : TransportEnvelope Nat :=
  { message := some
      { version := ""
        requestId := ""
        metadata := none
        timestamp := none
        kind := "request"
        action := "chat"
        payload := some 7 }
    attributes := none
    createdAt := some ⟨zeroTimeUnixSeconds, 0⟩
    envelopeVersion := ""
    traceId := "t-1"
    slotId := 3
    slotGeneration := 1 }

/-- C6 witness: a concrete double normalization collapses. -/
theorem normalizeEnvelope_idempotent_witness :
    ("uuid-a" ≠ "")
    ∧ (Timestamp.isZeroTime ⟨1700000000, 5⟩ = false)
    ∧ NormalizeEnvelope "uuid-b" ⟨1700000001, 0⟩
        (NormalizeEnvelope "uuid-a" ⟨1700000000, 5⟩ (some sampleEnv))
      = NormalizeEnvelope "uuid-a" ⟨1700000000, 5⟩ (some sampleEnv) :=
  ⟨by decide, by decide,
    normalizeEnvelope_idempotent "uuid-a" "uuid-b" ⟨1700000000, 5⟩ ⟨1700000001, 0⟩
      (by decide) (by decide) (some sampleEnv)⟩

/-- C5: `PublishIngress` returns the `ErrNotStarted` sentinel (a
non-nil error) when the stream is not yet established, without touching
the slot pool or sending; when the pool is full and the caller's
context is cancelled it returns the context's error without sending;
and when a slot is acquired it sends the normalized envelope, returns
the transport send error, and the slot count is restored (the deferred
release runs unconditionally). -/
theorem publishIngress_contract (pool : Option Int) (used cap : Int)
    (cc pc : Bool) (ctxErr : String) (env : TransportEnvelope V)
    (freshId : String) (now : Timestamp) (sendErr : Err) :
    PublishIngress false pool used cc pc ctxErr env freshId now sendErr
        = some { used := used, result := ErrNotStarted, sent := none }
    ∧ ErrNotStarted ≠ none
    ∧ (pool = some cap → cap ≤ used →
        PublishIngress true pool used true pc ctxErr env freshId now sendErr
          = some { used := used, result := some ctxErr, sent := none })
    ∧ (0 ≤ used → acquireSlot pool used cc pc = .ok →
        PublishIngress true pool used cc pc ctxErr env freshId now sendErr
          = some { used := used, result := sendErr,
                   sent := NormalizeEnvelope freshId now (some env) }) := by
  refine ⟨by simp [PublishIngress], by simp [ErrNotStarted], ?_, ?_⟩
  · intro hp hcap
    subst hp
    have hlt : ¬ used < cap := by omega
    simp [PublishIngress, acquireSlot, hlt]
  · intro hused hok
    cases pool with
    | none => simp [PublishIngress, hok, releaseSlot]
    | some c =>
      have h1 : releaseSlot (some c) (used + 1) = used := by
        simp only [releaseSlot]
        split_ifs <;> omega
      simp [PublishIngress, hok, h1]

/-- C5 witness: concrete not-started, cancelled-while-full, and
successful-send calls. -/
theorem publishIngress_contract_witness :
    PublishIngress false (some 2) 0 false false "context canceled" sampleEnv
        "u1" ⟨1700000000, 0⟩ none
      = some { used := 0, result := ErrNotStarted, sent := none }
    ∧ PublishIngress true (some 2) 2 true false "context canceled" sampleEnv
        "u1" ⟨1700000000, 0⟩ none
      = some { used := 2, result := some "context canceled", sent := none }
    ∧ PublishIngress true (some 2) 0 false false "context canceled" sampleEnv
        "u1" ⟨1700000000, 0⟩ (some "send failed")
      = some { used := 0, result := some "send failed",
               sent := NormalizeEnvelope "u1" ⟨1700000000, 0⟩ (some sampleEnv) } :=
  ⟨(publishIngress_contract (some 2) 0 2 false false "context canceled" sampleEnv
      "u1" ⟨1700000000, 0⟩ none).1,
   (publishIngress_contract (some 2) 2 2 true false "context canceled" sampleEnv
      "u1" ⟨1700000000, 0⟩ none).2.2.1 rfl (by decide),
   (publishIngress_contract (some 2) 0 2 false false "context canceled" sampleEnv
      "u1" ⟨1700000000, 0⟩ (some "send failed")).2.2.2 (by decide) (by decide)⟩

/-- C7: configuration errors fail fast — `NewClient` returns an error
(and no client) whenever the address, node id or namespace is empty,
and `Serve` returns immediately, before any connection is handled, when
the handler is nil or the listen address cannot be bound. -/
theorem config_fail_fast (opts : Options) (address : String)
    (listenE : Option String) (insec : Bool) (cert key : String)
    (tlsE : Option String) (e : String) :
    ((opts.address = "" ∨ opts.nodeId = "" ∨ opts.nspace = "") →
      ∃ msg, NewClient opts = .error msg)
    ∧ serverServe true address listenE insec cert key tlsE
        = .earlyError "handler is required"
    ∧ (listenE = some e →
        serverServe false address listenE insec cert key tlsE
          = .earlyError ("listen " ++ address ++ ": " ++ e)) := by
  refine ⟨?_, rfl, ?_⟩
  · intro hbad
    by_cases h1 : opts.address = ""
    · exact ⟨"bridge address is required", by simp [NewClient, h1]⟩
    · by_cases h2 : opts.nodeId = ""
      · exact ⟨"node id is required", by simp [NewClient, h1, h2]⟩
      · by_cases h3 : opts.nspace = ""
        · exact ⟨"namespace is required", by simp [NewClient, h1, h2, h3]⟩
        · rcases hbad with h | h | h <;> contradiction
  · intro hl
    subst hl
    rfl

/-- Options with an empty address, used by the C7 witness. -/
def badOpts : Options := { defaultBackoffCfg with address := "" }

/-- C7 witness: an empty address fails client construction; a nil
handler and a failing bind fail `Serve` before serving. -/
theorem config_fail_fast_witness :
    (∃ msg, NewClient badOpts = .error msg)
    ∧ serverServe true ":9" none true "" "" none = .earlyError "handler is required"
    ∧ serverServe false ":9" (some "address already in use") true "" "" none
        = .earlyError ("listen " ++ ":9" ++ ": " ++ "address already in use") := by
  have H := config_fail_fast badOpts ":9" (some "address already in use") true "" ""
    none "address already in use"
  exact ⟨H.1 (Or.inl rfl), H.2.1, H.2.2 rfl⟩

/-- C8: `Drain` first initiates `Close` (whatever the prior state, the
resulting state is the closed one), then returns nil when the internal
tasks finish before the context expires and the context's error when
the context expires first. -/
theorem drain_contract (s : CState) (ctxErr : String) :
    (∀ race, (Drain s race ctxErr).1 = closeClient s
        ∧ (Drain s race ctxErr).1.closed = true)
    ∧ (Drain s .tasksDone ctxErr).2 = none
    ∧ (Drain s .ctxExpired ctxErr).2 = some ctxErr := by
  have hc : (closeClient s).closed = true := by
    unfold closeClient
    split_ifs with h
    · exact h
    · rfl
  exact ⟨fun race => by cases race <;> exact ⟨rfl, hc⟩, rfl, rfl⟩

/-- C9 counterexample: not every write to the client's stream acquires
the send mutex before calling `Send` — the register send performed by
`client.connect` on the freshly assigned `c.stream` is a `Send` made at
lock depth zero, so the mutex does not serialize it against a
concurrent locked write (`PublishIngress` / `sendHeartbeat`) on the
same stream during a reconnect. -/
theorem connect_register_send_unlocked :
    StreamAction.sendFrame ∈ connectRegisterActions
    ∧ sendsLocked 0 connectRegisterActions = false := by decide

/-- C9 (amended): outbound writes through the session's `SendDeliver` /
`SendBroadcast` / `SendHeartbeat` (all via `session.send`), the
client's `PublishIngress` send section, and the heartbeat loop's
`sendHeartbeat` each perform their `Send` while holding the owning send
mutex with balanced lock/unlock — but the registration send in
`client.connect` writes the same client stream without acquiring
`sendMu`, so it is not serialized by the lock. -/
theorem sends_serialized_amended :
    sendsLocked 0 sendDeliverActions = true
    ∧ sendsLocked 0 sendBroadcastActions = true
    ∧ sendsLocked 0 sendHeartbeatActions = true
    ∧ sendsLocked 0 publishSendActions = true
    ∧ sendsLocked 0 clientHeartbeatActions = true
    ∧ sendsLocked 0 connectRegisterActions = false := by decide

/-- The `started` flag after a run of supervisor events is set iff some
connect attempt succeeded, whatever the starting state's flag. -/
theorem foldl_stepLife_started (events : List ClientEvent) :
    ∀ s : LifeState, (events.foldl stepLife s).started = true ↔
      (s.started = true ∨ ClientEvent.connectOk ∈ events) := by
  induction events with
  | nil => intro s; simp
  | cons e rest ih =>
    intro s
    cases e with
    | connectOk => simp [List.foldl_cons, stepLife, ih, List.mem_cons]
    | connectFail => simp [List.foldl_cons, stepLife, ih, List.mem_cons]
    | recvError => simp [List.foldl_cons, stepLife, ih, List.mem_cons]
    | closeEvt => simp [List.foldl_cons, stepLife, ih, List.mem_cons]

/-- C10: the client's `started` flag is set exactly by the first
successful registration send and never cleared afterwards — neither
`cleanup` (after a receive error) nor `Close` touches it — so once any
prefix of events contains a successful connect the flag stays true, and
`PublishIngress` takes its `ErrNotStarted` branch only when no
registration has ever succeeded. -/
theorem started_never_reset (events pre post : List ClientEvent)
    (pool : Option Int) (used : Int) (cc pc : Bool) (ctxErr : String)
    (env : TransportEnvelope V) (freshId : String) (now : Timestamp)
    (sendErr : Err) :
    ((events.foldl stepLife initLife).started = true ↔ ClientEvent.connectOk ∈ events)
    ∧ ((pre.foldl stepLife initLife).started = true →
        ((pre ++ post).foldl stepLife initLife).started = true)
    ∧ (∀ s : LifeState, (stepLife s .recvError).started = s.started
        ∧ (stepLife s .closeEvt).started = s.started)
    ∧ (ClientEvent.connectOk ∉ events →
        PublishIngress ((events.foldl stepLife initLife).started) pool used cc pc
          ctxErr env freshId now sendErr
          = some { used := used, result := ErrNotStarted, sent := none }) := by
  have hmain : (events.foldl stepLife initLife).started = true ↔
      ClientEvent.connectOk ∈ events := by
    rw [foldl_stepLife_started]
    simp [initLife]
  refine ⟨hmain, ?_, fun s => ⟨rfl, rfl⟩, ?_⟩
  · intro hpre
    rw [List.foldl_append, foldl_stepLife_started]
    exact Or.inl hpre
  · intro hnot
    have h0 : (events.foldl stepLife initLife).started = false := by
      cases hb : (events.foldl stepLife initLife).started
      · rfl
      · exact absurd (hmain.mp hb) hnot
    rw [h0]
    simp [PublishIngress]

/-- C10 witness: after a successful connect, a receive error (cleanup)
and a `Close` leave `started` true; before any successful connect,
`PublishIngress` returns `ErrNotStarted`. -/
theorem started_never_reset_witness :
    ((([ClientEvent.connectOk] : List ClientEvent)
        ++ [ClientEvent.recvError, ClientEvent.closeEvt]).foldl stepLife initLife).started = true
    ∧ PublishIngress (([ClientEvent.connectFail].foldl stepLife initLife).started)
        none 0 false false "ctx" sampleEnv "u" ⟨1, 1⟩ none
        = some { used := 0, result := ErrNotStarted, sent := none } := by
  have H := started_never_reset [ClientEvent.connectFail] [ClientEvent.connectOk]
    [ClientEvent.recvError, ClientEvent.closeEvt] none 0 false false "ctx"
    sampleEnv "u" ⟨1, 1⟩ none
  exact ⟨H.2.1 (by decide), H.2.2.2 (by decide)⟩

end TransportLib
